import Mathlib

/-!
Verification development for the supply-chain verification dashboard
(`phase_3/python_chainguard/app.py`).  The Python functions that the
claims concern are shallowly embedded as executable Lean definitions:
JSON objects read through `dict.get(key, default)` become structures of
`Option` fields read through `Option.getD`, character-level string
operations (`split`, `strip`, `endswith`, the two fixed regular
expressions) are implemented structurally over `List Char`, and
fallible effects (subprocess steps, base64/JSON decoding) are passed in
as explicit outcome environments so that control flow around them can be
proved about.
-/

set_option maxHeartbeats 1000000

namespace ChainApp

/-! ## Character-level string utilities (executable models of the
Python string operations used by `app.py`). -/

/-- The character list underlying a string (`String.toList`, kept as its
own definition so rewriting hypotheses stay syntactically stable). -/
def strChars (s : String) : List Char := s.data

/-- Model of Python `sub in s` (substring containment) on character lists. -/
def containsSub (pat : List Char) : List Char → Bool
  | [] => pat.isEmpty
  | c :: rest => pat.isPrefixOf (c :: rest) || containsSub pat rest

/-- Model of Python `s.split(c)` for a one-character separator: every
occurrence splits, empty pieces are kept, `"".split(c) == [""]`. -/
def splitChar (c : Char) : List Char → List (List Char)
  | [] => [[]]
  | x :: rest =>
    if x = c then [] :: splitChar c rest
    else
      match splitChar c rest with
      | p :: ps => (x :: p) :: ps
      | [] => [[x]]

/-- Model of Python `s.split(ab, 1)` for the two-character separator
`"=="`: splits at the leftmost occurrence of the pair `a, b`, returning
the pieces before and after it, or `none` when the pair never occurs. -/
def splitOncePair (a b : Char) : List Char → Option (List Char × List Char)
  | [] => none
  | [_] => none
  | x :: y :: rest =>
    if x = a ∧ y = b then some ([], y :: rest |>.tail)
    else
      match splitOncePair a b (y :: rest) with
      | some (p, q) => some (x :: p, q)
      | none => none

/-- Model of Python `s.strip()`: whitespace removed from both ends. -/
def stripChars (l : List Char) : List Char :=
  ((l.dropWhile Char.isWhitespace).reverse.dropWhile Char.isWhitespace).reverse

/-- `pyStrip` lifts `stripChars` to `String`. -/
def pyStrip (s : String) : String :=
  String.mk (stripChars (strChars s))

/-- Model of Python `s.endswith(t)`. -/
def strEndsWith (s t : String) : Bool :=
  (strChars t).isSuffixOf (strChars s)

/-- Model of Python `s[:-n]` (drop the last `n` characters). -/
def dropLastN (n : Nat) (s : String) : String :=
  String.mk ((strChars s).take ((strChars s).length - n))

/-- Model of Python `pathlib.Path(p).name`: the last nonempty `/`-separated
segment of the path (`""` when there is none). -/
def pathBaseName (p : String) : String :=
  String.mk (((splitChar '/' (strChars p)).filter (fun x => ¬x.isEmpty)).getLastD [])

/-! ## The two fixed regular expressions of `parse_chainver_output`. -/

/-- The literal part of the regex
`(https://rekor\.sigstore\.dev/api/v1/log/entries/\?logIndex=\d+)`. -/
def rekorEntriesLit : String :=
  "https://rekor.sigstore.dev/api/v1/log/entries/?logIndex="

/-- Model of `re.search` for a pattern `literal\d+`: at the leftmost
position where the literal occurs immediately followed by at least one
digit, return the literal together with the maximal digit run. -/
def digitsAfterLit (pat : List Char) : List Char → Option (List Char)
  | [] => none
  | c :: rest =>
    if pat.isPrefixOf (c :: rest) then
      let ds := ((c :: rest).drop pat.length).takeWhile Char.isDigit
      if ds.isEmpty then digitsAfterLit pat rest
      else some (pat ++ ds)
    else digitsAfterLit pat rest

/-- The character class `[=:\s]` of the fallback regex. -/
def sepClassChar (c : Char) : Bool :=
  c = '=' || c = ':' || c.isWhitespace

/-- Model of `re.search(r'logIndex[=:\s]+(\d+)', s)`: at the leftmost
position where `logIndex` occurs followed by at least one separator
character and then at least one digit, return the captured digit run.
(The separator class and the digit class are disjoint, so the greedy
match needs no backtracking.) -/
def logIndexDigits : List Char → Option (List Char)
  | [] => none
  | c :: rest =>
    if (strChars "logIndex").isPrefixOf (c :: rest) then
      let after := (c :: rest).drop 8
      let seps := after.takeWhile sepClassChar
      if seps.isEmpty then logIndexDigits rest
      else
        let ds := (after.drop seps.length).takeWhile Char.isDigit
        if ds.isEmpty then logIndexDigits rest
        else some ds
    else logIndexDigits rest

/-! ## Verifier output normalizer (`parse_chainver_output`). -/

/-- One entry of the per-artifact shape (`results` array); each field is
read in the source through `dict.get` with a default, hence `Option`. -/
structure ArtifactEntry where
  artifact : Option String
  artifactVerificationCoverage : Option Int
  details : Option String
deriving DecidableEq, Repr

/-- One entry of the legacy nested shape (`nestedResults` array). -/
structure NestedEntry where
  coordinates : Option String
  path : Option String
  verificationCoverage : Option Int
  verificationMethod : Option String
  details : Option String
deriving DecidableEq, Repr

/-- The top-level verifier JSON object, restricted to the keys
`parse_chainver_output` reads. -/
structure ChainverData where
  overallVerificationCoverage : Option Int
  artifactVerificationCoverage : Option Int
  details : Option String
  results : Option (List ArtifactEntry)
  nestedResults : Option (List NestedEntry)
deriving DecidableEq, Repr

/-- One normalized package record, as appended to `results["packages"]`. -/
structure PackageRecord where
  name : String
  version : String
  verified : Bool
  details : String
  verification_method : String
  rekor_url : Option String
deriving DecidableEq, Repr

/-- The full return value of `parse_chainver_output`. -/
structure ChainverResults where
  verified_count : Nat
  total_count : Nat
  packages : List PackageRecord
  overall_coverage : Int
  artifact_coverage : Int
  details : String
deriving DecidableEq, Repr

/-- The Rekor-URL extraction block that appears verbatim in both branches
of `parse_chainver_output`: guarded by `is_verified and
'rekor.sigstore.dev' in details_str`, it first tries the full-URL regex
and then falls back to a bare `logIndex` capture. -/
def extractRekorUrl (is_verified : Bool) (details_str : String) : Option String :=
  if is_verified && containsSub (strChars "rekor.sigstore.dev") (strChars details_str) then
    match digitsAfterLit (strChars rekorEntriesLit) (strChars details_str) with
    | some m => some (String.mk m)
    | none =>
      match logIndexDigits (strChars details_str) with
      | some ds => some ("https://search.sigstore.dev/?logIndex=" ++ String.mk ds)
      | none => none
  else none

/-- The body of the `for artifact in artifact_results` loop: derive
name/version from the artifact file name, decide `verified` by
`artifactVerificationCoverage == 100`, and build the record. -/
def parseArtifactEntry (a : ArtifactEntry) : PackageRecord :=
  let artifact_path := a.artifact.getD ""
  let filename := pathBaseName artifact_path
  let nv : String × String :=
    if strEndsWith filename ".whl" then
      match (splitChar '-' (strChars (dropLastN 4 filename))).map String.mk with
      | n :: v :: _ => (n, v)
      | _ => (filename, "")
    else (filename, "")
  let is_verified := a.artifactVerificationCoverage.getD 0 == 100
  let details_str := a.details.getD ""
  { name := nv.1
    version := nv.2
    verified := is_verified
    details := details_str
    verification_method := if is_verified then "signature" else "none"
    rekor_url := extractRekorUrl is_verified details_str }

/-- The body of the `for pkg_result in nested_results` loop: split the
`coordinates` string on the first `==`, falling back to the `path` field,
decide `verified` by `verificationCoverage == 100`, and carry the
tool-reported `verificationMethod` through. -/
def parseNestedEntry (p : NestedEntry) : PackageRecord :=
  let coordinates := p.coordinates.getD ""
  let nv : String × String :=
    match splitOncePair '=' '=' (strChars coordinates) with
    | some (n, v) => (String.mk n, String.mk v)
    | none => (p.path.getD "Unknown", "")
  let is_verified := p.verificationCoverage.getD 0 == 100
  let details_str := p.details.getD ""
  { name := nv.1
    version := nv.2
    verified := is_verified
    details := details_str
    verification_method := p.verificationMethod.getD "none"
    rekor_url := extractRekorUrl is_verified details_str }

/-- `parse_chainver_output`: the per-artifact branch is taken when the
`results` list (default `[]`) is non-empty (Python truthiness),
otherwise the legacy `nestedResults` branch runs. -/
def parse_chainver_output (chainver_data : ChainverData) : ChainverResults :=
  let overall :=
    chainver_data.overallVerificationCoverage.getD
      (chainver_data.artifactVerificationCoverage.getD 0)
  let artifact_cov := chainver_data.artifactVerificationCoverage.getD 0
  let top_details := chainver_data.details.getD ""
  let artifact_results := chainver_data.results.getD []
  if artifact_results.isEmpty then
    let nested_results := chainver_data.nestedResults.getD []
    let packages := nested_results.map parseNestedEntry
    { verified_count := packages.countP (·.verified)
      total_count := nested_results.length
      packages := packages
      overall_coverage := overall
      artifact_coverage := artifact_cov
      details := top_details }
  else
    let packages := artifact_results.map parseArtifactEntry
    { verified_count := packages.countP (·.verified)
      total_count := artifact_results.length
      packages := packages
      overall_coverage := overall
      artifact_coverage := artifact_cov
      details := top_details }

/-! ## Archive inspector (`get_wheel_contents` / `build_file_tree`). -/

/-- One flat entry of the archive listing, as built in the
`for filename in file_list` loop of `get_wheel_contents`. -/
structure FileItem where
  path : String
  size : Nat
  compressed_size : Nat
  is_dir : Bool
deriving DecidableEq, Repr

/-- A node of the tree dict built by `build_file_tree`: the `type`,
`size`, `path` and `children` keys, each possibly absent. -/
inductive TreeNode where
  | mk (ntype : String) (size : Option Nat) (path : Option String)
       (children : Option (List (String × TreeNode))) : TreeNode

/-- Python-dict lookup on an insertion-ordered association list. -/
def alGet (k : String) : List (String × TreeNode) → Option TreeNode
  | [] => none
  | (k', v) :: rest => if k' = k then some v else alGet k rest

/-- Python-dict assignment: an existing key is updated in place (keeping
its position), a new key is appended at the end. -/
def alSet (k : String) (v : TreeNode) : List (String × TreeNode) → List (String × TreeNode)
  | [] => [(k, v)]
  | (k', v') :: rest =>
    if k' = k then (k, v) :: rest else (k', v') :: alSet k v rest

/-- The inner `for i, part in enumerate(path_parts)` loop of
`build_file_tree`, as a recursion over the remaining path parts: the
final segment becomes a leaf node (skipped when empty, i.e. a trailing
separator), every earlier segment becomes or reuses a directory node and
the insertion continues inside its `children` dict. -/
def insertPath (item : FileItem) : List String → List (String × TreeNode) → List (String × TreeNode)
  | [], t => t
  | [part], t =>
    if part = "" then t
    else
      alSet part
        (TreeNode.mk (if item.is_dir then "dir" else "file") (some item.size) (some item.path) none) t
  | part :: rest, t =>
    let node : TreeNode :=
      match alGet part t with
      | none => TreeNode.mk "dir" none none (some [])
      | some (TreeNode.mk ty sz pa ch) => TreeNode.mk ty sz pa (some (ch.getD []))
    match node with
    | TreeNode.mk ty sz pa ch =>
      alSet part (TreeNode.mk ty sz pa (some (insertPath item rest (ch.getD [])))) t

/-- The `/`-separated segments of an entry path (empty pieces kept,
exactly like Python `path.split('/')`). -/
def pathSegs (p : String) : List String :=
  (splitChar '/' (strChars p)).map String.mk

/-- `build_file_tree`: fold every flat entry into the tree. -/
def build_file_tree (file_info : List FileItem) : List (String × TreeNode) :=
  file_info.foldl (fun t item => insertPath item (pathSegs item.path) t) []

/-- One raw archive entry as reported by the zip container:
`namelist()` path plus `getinfo` sizes. -/
structure ZipEntry where
  path : String
  file_size : Nat
  compress_size : Nat
deriving DecidableEq, Repr

/-- The manifest returned by `get_wheel_contents` (the filesystem lookup
of the archive is modelled by passing the zip entry listing in). -/
structure WheelContents where
  package : String
  version : String
  total_files : Nat
  total_size : Nat
  files : List FileItem
  tree : List (String × TreeNode)

/-- `get_wheel_contents`, from the point where the archive has been
opened: record every entry's sizes and directory flag (path ends in
`/`), sum `file_size` over all entries, and build the tree. -/
def get_wheel_contents (package_name version : String) (entries : List ZipEntry) : WheelContents :=
  let file_info : List FileItem := entries.map fun e =>
    { path := e.path
      size := e.file_size
      compressed_size := e.compress_size
      is_dir := strEndsWith e.path "/" }
  { package := package_name
    version := version
    total_files := entries.length
    total_size := (entries.map (·.file_size)).sum
    files := file_info
    tree := build_file_tree file_info }

/-! ## Source reference resolver (`resolve_tag_to_commit`).

The three awaited subprocess steps (clone, fetch, rev-list) are modelled
by an environment recording, for each step, whether awaiting it raised
(network error, spawn failure, `asyncio` timeout — the source ignores
exit codes) and, for the rev-list step, the decoded stdout. -/

/-- Outcome of awaiting one subprocess step: it either completed
(yielding its captured value) or raised an exception. -/
inductive StepResult (α : Type) where
  | ok (val : α) : StepResult α
  | exn : StepResult α
deriving DecidableEq, Repr

/-- Outcomes of the three git subprocess steps of `resolve_tag_to_commit`. -/
structure GitEnv where
  clone : StepResult Unit
  fetch : StepResult Unit
  revList : StepResult String
deriving DecidableEq, Repr

/-- `resolve_tag_to_commit`: any exception at any step is caught by the
enclosing `try`/`except` and the original `object_id` is returned; when
all steps complete, the stripped rev-list stdout is returned unless it
is empty, in which case the original `object_id` is returned.  The
function is total: no error ever propagates to the caller. -/
def resolve_tag_to_commit (env : GitEnv) (repo_url tag_name object_id : String) : String :=
  match env.clone with
  | .exn => object_id
  | .ok _ =>
    match env.fetch with
    | .exn => object_id
    | .ok _ =>
      match env.revList with
      | .exn => object_id
      | .ok out =>
        let commit_sha := pyStrip out
        if commit_sha = "" then object_id else commit_sha

/-! ## Attestation decoder (`parse_provenance_data`).

The composite `json.loads(base64.b64decode(s).decode('utf-8'))` step is
modelled by an explicit decoder argument `dec : String → Except DecodeErr
Statement`; the source wraps it in no per-attestation handler, so a
decode failure propagates out of both loops (modelled by the `Except`
threading below). -/

/-- Verbatim JSON payloads that `parse_provenance_data` copies without
inspecting (publisher metadata, parameters, dependencies, ...). -/
inductive Json where
  | null : Json
  | str (s : String) : Json
  | num (n : Int) : Json
  | jbool (b : Bool) : Json
  | arr (elems : List Json) : Json
  | obj (fields : List (String × Json)) : Json

/-- Failure of the base64 or inner JSON decode of a statement. -/
inductive DecodeErr where
  | badBase64
  | badJson
deriving DecidableEq, Repr

/-- The `buildDefinition` sub-object of a decoded statement. -/
structure BuildDefinition where
  buildType : Option String
  externalParameters : Option Json
  internalParameters : Option Json
  resolvedDependencies : Option (List Json)

/-- The `runDetails` sub-object of a decoded statement. -/
structure RunDetails where
  builder : Option Json
  metadata : Option Json

/-- The `predicate` sub-object of a decoded statement. -/
structure StmtPredicate where
  buildDefinition : Option BuildDefinition
  runDetails : Option RunDetails

/-- A decoded in-toto statement, restricted to the keys the source reads. -/
structure Statement where
  subject : Option (List Json)
  predicate : Option StmtPredicate

/-- One transparency-log entry of the verification material. -/
structure TransparencyEntry where
  logIndex : Option Json
  integratedTime : Option Json

/-- The `verification_material` sub-object of an attestation. -/
structure VerificationMaterial where
  certificate : Option String
  transparency_entries : Option (List TransparencyEntry)

/-- The `envelope` sub-object; `statement` holds the base64 payload when
the `'statement' in envelope` test succeeds. -/
structure EnvelopeIn where
  statement : Option String

/-- One raw attestation of a bundle.  `verification_material` is `none`
when the key is absent or the dict is empty (Python truthiness). -/
structure AttestationIn where
  version : Option Int
  envelope : Option EnvelopeIn
  verification_material : Option VerificationMaterial

/-- One raw attestation bundle. -/
structure BundleIn where
  publisher : Option Json
  attestations : Option (List AttestationIn)

/-- The fetched provenance document. -/
structure ProvenanceData where
  version : Option Int
  attestation_bundles : Option (List BundleIn)

/-- The `verification` sub-dict of a parsed attestation; `log_index` and
`integrated_time` are set exactly when a first transparency entry exists. -/
structure VerificationInfo where
  certificate_length : Nat
  transparency_entries : Nat
  log_index : Option Json
  integrated_time : Option Json

/-- One parsed attestation (`att_info`); the statement-derived keys are
`none` exactly when the envelope carried no `statement`. -/
structure AttInfo where
  version : Int
  subject : Option (List Json)
  build_type : Option String
  external_parameters : Option Json
  internal_parameters : Option Json
  resolved_dependencies : Option (List Json)
  builder : Option Json
  metadata : Option Json
  verification : Option VerificationInfo

/-- One parsed bundle (`bundle_info`). -/
structure BundleInfo where
  publisher : Json
  attestations : List AttInfo

/-- The full return value of `parse_provenance_data`. -/
structure ParsedProvenance where
  version : Int
  bundles : List BundleInfo

/-- The base64 payload of an attestation, when present (the
`envelope = attestation.get('envelope', {})` / `'statement' in envelope`
steps of the source). -/
def statementOf (att : AttestationIn) : Option String :=
  (att.envelope.getD ⟨none⟩).statement

/-- The per-attestation body of `parse_provenance_data`: decode the
statement when one is present (a decode failure escapes — the source has
no handler here), then attach the verification material summary. -/
def parse_attestation (dec : String → Except DecodeErr Statement)
    (att : AttestationIn) : Except DecodeErr AttInfo :=
  let base : AttInfo :=
    { version := att.version.getD 1, subject := none, build_type := none
      external_parameters := none, internal_parameters := none
      resolved_dependencies := none, builder := none, metadata := none
      verification := none }
  let withStmt : Except DecodeErr AttInfo :=
    match statementOf att with
    | none => .ok base
    | some enc =>
      match dec enc with
      | .error e => .error e
      | .ok statement =>
        let predicate := statement.predicate.getD ⟨none, none⟩
        let build_def := predicate.buildDefinition.getD ⟨none, none, none, none⟩
        let run_details := predicate.runDetails.getD ⟨none, none⟩
        .ok { base with
          subject := some (statement.subject.getD [])
          build_type := some (build_def.buildType.getD "")
          external_parameters := some (build_def.externalParameters.getD (Json.obj []))
          internal_parameters := some (build_def.internalParameters.getD (Json.obj []))
          resolved_dependencies := some (build_def.resolvedDependencies.getD [])
          builder := some (run_details.builder.getD (Json.obj []))
          metadata := some (run_details.metadata.getD (Json.obj [])) }
  match withStmt with
  | .error e => .error e
  | .ok info =>
    match att.verification_material with
    | none => .ok info
    | some vm =>
      let entries := vm.transparency_entries.getD []
      let verifBase : VerificationInfo :=
        { certificate_length := (strChars (vm.certificate.getD "")).length
          transparency_entries := entries.length
          log_index := none, integrated_time := none }
      let verif :=
        match entries with
        | [] => verifBase
        | e :: _ =>
          { verifBase with
            log_index := some (e.logIndex.getD (Json.str ""))
            integrated_time := some (e.integratedTime.getD (Json.str "")) }
      .ok { info with verification := some verif }

/-- The `for attestation in bundle.get('attestations', [])` loop; the
first decode failure propagates out (no per-item handler in the source). -/
def parse_attestations (dec : String → Except DecodeErr Statement) :
    List AttestationIn → Except DecodeErr (List AttInfo)
  | [] => .ok []
  | a :: rest =>
    match parse_attestation dec a with
    | .error e => .error e
    | .ok i =>
      match parse_attestations dec rest with
      | .error e => .error e
      | .ok is => .ok (i :: is)

/-- The `for bundle in provenance_data.get('attestation_bundles', [])`
loop; a decode failure inside any bundle propagates out. -/
def parse_bundles (dec : String → Except DecodeErr Statement) :
    List BundleIn → Except DecodeErr (List BundleInfo)
  | [] => .ok []
  | b :: rest =>
    match parse_attestations dec (b.attestations.getD []) with
    | .error e => .error e
    | .ok atts =>
      match parse_bundles dec rest with
      | .error e => .error e
      | .ok bs => .ok ({ publisher := b.publisher.getD (Json.obj []), attestations := atts } :: bs)

/-- `parse_provenance_data`: parse every bundle; an uncaught decode
failure aborts the whole document (it is caught only by the HTTP handler
around the call, which turns it into a single error response). -/
def parse_provenance_data (dec : String → Except DecodeErr Statement)
    (provenance_data : ProvenanceData) : Except DecodeErr ParsedProvenance :=
  match parse_bundles dec (provenance_data.attestation_bundles.getD []) with
  | .error e => .error e
  | .ok bs => .ok { version := provenance_data.version.getD 1, bundles := bs }

/-! ## Aggregation layer: authentication gating (`chainver_api`,
`chainver_verbose_api`).

The handlers are modelled as functions of the authentication flag and an
environment describing what the external tool would do if invoked; the
boolean paired with the response records whether the external
verification process was spawned. -/

/-- The JSON body a handler responds with. -/
inductive ApiResponse where
  | unauthorized : ApiResponse
  | errorMsg (msg : String) : ApiResponse
  | results (r : ChainverResults) : ApiResponse
  | verbose (out : String) : ApiResponse
deriving Repr

/-- Environment for a normal verification run: the wheel listing and the
outcome of the `chainver` process (exit code, whether stdout was
non-empty, and the result of `json.loads` on it). -/
structure RunEnv where
  wheel_files : List String
  returncode : Int
  stdout_nonempty : Bool
  parsed : Except String ChainverData

/-- `get_chainver_results` (its decision structure): no wheel files means
an error without spawning the tool; otherwise the tool is spawned and its
output parsed (a `json.loads` failure is caught by the enclosing
`except` and returned as an error).  The boolean records whether the
external process was invoked. -/
def get_chainver_results (env : RunEnv) : ApiResponse × Bool :=
  if env.wheel_files.isEmpty then
    (.errorMsg "No wheel files found in /app/wheels/", false)
  else if env.returncode == 0 && env.stdout_nonempty then
    match env.parsed with
    | .ok d => (.results (parse_chainver_output d), true)
    | .error e => (.errorMsg e, true)
  else
    (.errorMsg "Unable to run chainver", true)

/-- `chainver_api`: the authentication gate runs before anything else;
an unauthenticated request is answered with the 401 body immediately and
`get_chainver_results` is never reached. -/
def chainver_api (authenticated : Bool) (env : RunEnv) : ApiResponse × Bool :=
  if !authenticated then (.unauthorized, false)
  else get_chainver_results env

/-- Environment for a verbose run: the wheel listing and the combined
output the tool would produce. -/
structure VerboseEnv where
  wheel_files : List String
  output : String

/-- `chainver_verbose_api`: same authentication gate first; with wheels
present the verbose tool is spawned and its output returned. -/
def chainver_verbose_api (authenticated : Bool) (env : VerboseEnv) : ApiResponse × Bool :=
  if !authenticated then (.unauthorized, false)
  else if env.wheel_files.isEmpty then (.errorMsg "No wheel files found", false)
  else (.verbose env.output, true)

/-! ## Helper lemmas. -/

/-- When the two-character pair never occurs in the list (Python's
`'==' in coordinates` test fails), the split-once function finds nothing. -/
theorem splitOncePair_none_of_not_contains (a b : Char) (l : List Char)
    (h : containsSub [a, b] l = false) : splitOncePair a b l = none := by
  induction l with
  | nil => rfl
  | cons c rest ih =>
    rw [containsSub, Bool.or_eq_false_iff] at h
    obtain ⟨h1, h2⟩ := h
    cases rest with
    | nil => rfl
    | cons y rest2 =>
      rw [splitOncePair]
      have hne : ¬(c = a ∧ y = b) := by
        intro ⟨hc, hy⟩
        subst hc; subst hy
        simp [List.isPrefixOf] at h1
      rw [if_neg hne, ih h2]

/-- The extraction helper yields nothing for an unverified record. -/
theorem extractRekorUrl_of_false (s : String) : extractRekorUrl false s = none := by
  simp [extractRekorUrl]

/-! ## Claim theorems. -/

/-- Claim C1 (confirmed): for every well-formed verifier JSON input the
normalizer produces exactly one record per entry of the `results` array
(or, when that is empty/absent, the `nestedResults` array) — N entries
give N records, empty gives zero — and each record's `verified` flag is
true exactly when that entry's coverage field equals 100. -/
theorem parse_chainver_output_record_count_and_verified (d : ChainverData) :
    ((d.results.getD []).isEmpty = false →
      (parse_chainver_output d).packages.length = (d.results.getD []).length ∧
      ∀ i : Nat,
        ((parse_chainver_output d).packages.get? i).map (·.verified)
          = ((d.results.getD []).get? i).map
              (fun a => a.artifactVerificationCoverage.getD 0 == 100)) ∧
    ((d.results.getD []).isEmpty = true →
      (parse_chainver_output d).packages.length = (d.nestedResults.getD []).length ∧
      ∀ i : Nat,
        ((parse_chainver_output d).packages.get? i).map (·.verified)
          = ((d.nestedResults.getD []).get? i).map
              (fun p => p.verificationCoverage.getD 0 == 100)) := by
  constructor
  · intro h
    constructor
    · simp [parse_chainver_output, h]
    · intro i
      simp only [parse_chainver_output, h, Bool.false_eq_true, if_false, List.get?_map]
      cases (d.results.getD []).get? i with
      | none => rfl
      | some a => simp [parseArtifactEntry]
  · intro h
    constructor
    · simp [parse_chainver_output, h]
    · intro i
      simp only [parse_chainver_output, h, if_true, List.get?_map]
      cases (d.nestedResults.getD []).get? i with
      | none => rfl
      | some p => simp [parseNestedEntry]

/-- Witness for C1: a concrete per-artifact input with coverages 100, 99
and 101 yields three records whose `verified` flags are true, false and
false. -/
theorem parse_chainver_output_record_count_and_verified_w :
    (parse_chainver_output
        { overallVerificationCoverage := none, artifactVerificationCoverage := none
          details := none
          results := some
            [{ artifact := some "a-1-x.whl", artifactVerificationCoverage := some 100, details := none },
             { artifact := some "b-2-x.whl", artifactVerificationCoverage := some 99, details := none },
             { artifact := some "c-3-x.whl", artifactVerificationCoverage := some 101, details := none }]
          nestedResults := none }).packages.length = 3 ∧
    ((parse_chainver_output
        { overallVerificationCoverage := none, artifactVerificationCoverage := none
          details := none
          results := some
            [{ artifact := some "a-1-x.whl", artifactVerificationCoverage := some 100, details := none },
             { artifact := some "b-2-x.whl", artifactVerificationCoverage := some 99, details := none },
             { artifact := some "c-3-x.whl", artifactVerificationCoverage := some 101, details := none }]
          nestedResults := none }).packages.get? 1).map (·.verified) = some false := by
  have h := (parse_chainver_output_record_count_and_verified
    { overallVerificationCoverage := none, artifactVerificationCoverage := none
      details := none
      results := some
        [{ artifact := some "a-1-x.whl", artifactVerificationCoverage := some 100, details := none },
         { artifact := some "b-2-x.whl", artifactVerificationCoverage := some 99, details := none },
         { artifact := some "c-3-x.whl", artifactVerificationCoverage := some 101, details := none }]
      nestedResults := none }).1 (by decide)
  exact ⟨h.1.trans (by decide), (h.2 1).trans (by decide)⟩

/-- Claim C10 (confirmed): the normalizer's result is internally
consistent on every input — `total_count` is the number of package
records, `verified_count` is the number of records with a true
`verified` flag, and hence `verified_count ≤ total_count`. -/
theorem parse_chainver_output_counts (d : ChainverData) :
    (parse_chainver_output d).total_count = (parse_chainver_output d).packages.length ∧
    (parse_chainver_output d).verified_count
      = ((parse_chainver_output d).packages.filter (·.verified)).length ∧
    (parse_chainver_output d).verified_count ≤ (parse_chainver_output d).total_count := by
  by_cases h : (d.results.getD []).isEmpty <;>
    simp [parse_chainver_output, h, List.countP_eq_length_filter] <;>
    exact le_trans (List.length_filter_le _ _) (le_of_eq (List.length_map _ _))

/-- Claim C9 (confirmed): in either input shape, a record that carries a
transparency-log URL is verified — the extraction block is guarded by
`is_verified`, so an unverified record never gets a `rekor_url`, no
matter what its details text contains. -/
theorem rekor_url_implies_verified (d : ChainverData) (r : PackageRecord)
    (hr : r ∈ (parse_chainver_output d).packages) (hu : r.rekor_url ≠ none) :
    r.verified = true := by
  by_cases h : (d.results.getD []).isEmpty
  · simp [parse_chainver_output, h, List.mem_map] at hr
    obtain ⟨p, _, rfl⟩ := hr
    cases hv : p.verificationCoverage.getD 0 == 100
    · exact absurd (by simp [parseNestedEntry, hv, extractRekorUrl]) hu
    · simp [parseNestedEntry, hv]
  · simp [parse_chainver_output, h, List.mem_map] at hr
    obtain ⟨a, _, rfl⟩ := hr
    cases hv : a.artifactVerificationCoverage.getD 0 == 100
    · exact absurd (by simp [parseArtifactEntry, hv, extractRekorUrl]) hu
    · simp [parseArtifactEntry, hv]

/-- Witness for C9: a concrete verified record carrying a Rekor URL. -/
theorem rekor_url_implies_verified_w :
    (parseArtifactEntry
      { artifact := some "/w/flask-3.1.2-py3-none-any.whl"
        artifactVerificationCoverage := some 100
        details := some "ok https://rekor.sigstore.dev/api/v1/log/entries/?logIndex=9" }).verified
      = true :=
  rekor_url_implies_verified
    { overallVerificationCoverage := none, artifactVerificationCoverage := some 100
      details := none
      results := some
        [{ artifact := some "/w/flask-3.1.2-py3-none-any.whl"
           artifactVerificationCoverage := some 100
           details := some "ok https://rekor.sigstore.dev/api/v1/log/entries/?logIndex=9" }]
      nestedResults := none }
    (parseArtifactEntry
      { artifact := some "/w/flask-3.1.2-py3-none-any.whl"
        artifactVerificationCoverage := some 100
        details := some "ok https://rekor.sigstore.dev/api/v1/log/entries/?logIndex=9" })
    (by decide) (by decide)

/-- Claim C7 (confirmed): a verified record never reports method `none`
when the tool reports a method: in the per-artifact shape every verified
record's method is `signature`, and in the legacy shape the tool-reported
`verificationMethod` is carried through verbatim, so an explicitly
reported method other than `none` makes the record's method differ from
`none`. -/
theorem verified_implies_method_reported (d : ChainverData) (r : PackageRecord)
    (hr : r ∈ (parse_chainver_output d).packages) (hv : r.verified = true) :
    ((d.results.getD []).isEmpty = false → r.verification_method = "signature") ∧
    ((d.results.getD []).isEmpty = true →
      ∃ p ∈ d.nestedResults.getD [],
        r.verification_method = p.verificationMethod.getD "none" ∧
        ∀ m, p.verificationMethod = some m → m ≠ "none" → r.verification_method ≠ "none") := by
  by_cases h : (d.results.getD []).isEmpty
  · have hb : (parse_chainver_output d).packages
        = (d.nestedResults.getD []).map parseNestedEntry := by
      simp [parse_chainver_output, h]
    rw [hb] at hr
    obtain ⟨p, hp, hpr⟩ := List.mem_map.1 hr
    subst hpr
    constructor
    · intro hc
      rw [h] at hc
      exact Bool.noConfusion hc
    · intro _
      refine ⟨p, hp, rfl, ?_⟩
      intro m hm hne
      rw [show (parseNestedEntry p).verification_method
            = p.verificationMethod.getD "none" from rfl, hm]
      exact hne
  · have h2 : (d.results.getD []).isEmpty = false := by
      cases hh : (d.results.getD []).isEmpty
      · rfl
      · exact absurd hh h
    have hb : (parse_chainver_output d).packages
        = (d.results.getD []).map parseArtifactEntry := by
      simp [parse_chainver_output, h2]
    rw [hb] at hr
    obtain ⟨a, _, hpr⟩ := List.mem_map.1 hr
    subst hpr
    constructor
    · intro _
      have hcov : (a.artifactVerificationCoverage.getD 0 == 100) = true := hv
      show (if a.artifactVerificationCoverage.getD 0 == 100 then "signature" else "none")
        = "signature"
      simp [hcov]
    · intro hc
      exact absurd hc h

/-- Witness for C7: a concrete verified legacy record whose tool-reported
method `pgp` is carried through, hence differs from `none`. -/
theorem verified_implies_method_reported_w :
    (parseNestedEntry
      { coordinates := some "a==1", path := none, verificationCoverage := some 100
        verificationMethod := some "pgp", details := none }).verification_method ≠ "none" := by
  obtain ⟨p, hp, hm, himp⟩ :=
    (verified_implies_method_reported
      { overallVerificationCoverage := none, artifactVerificationCoverage := none
        details := none, results := none
        nestedResults := some
          [{ coordinates := some "a==1", path := none, verificationCoverage := some 100
             verificationMethod := some "pgp", details := none }] }
      (parseNestedEntry
        { coordinates := some "a==1", path := none, verificationCoverage := some 100
          verificationMethod := some "pgp", details := none })
      (by decide) (by decide)).2 (by decide)
  have hpe : p = { coordinates := some "a==1", path := none, verificationCoverage := some 100
                   verificationMethod := some "pgp", details := none } := by
    simpa using hp
  subst hpe
  exact himp "pgp" rfl (by decide)

/-- Claim C8 (confirmed): in the legacy nested shape a `coordinates`
string containing `==` is split at its first occurrence into name and
version (`"flask==3.1.2"` gives `"flask"` / `"3.1.2"`), and a
coordinates string lacking `==` makes the record fall back to the
entry's `path` field as name with an empty version. -/
theorem nested_coordinates_split (p : NestedEntry) :
    ((parseNestedEntry
        { coordinates := some "flask==3.1.2", path := none, verificationCoverage := none
          verificationMethod := none, details := none }).name = "flask" ∧
     (parseNestedEntry
        { coordinates := some "flask==3.1.2", path := none, verificationCoverage := none
          verificationMethod := none, details := none }).version = "3.1.2") ∧
    (containsSub (strChars "==") (strChars (p.coordinates.getD "")) = false →
      (parseNestedEntry p).name = p.path.getD "Unknown" ∧ (parseNestedEntry p).version = "") := by
  refine ⟨⟨by decide, by decide⟩, fun h => ?_⟩
  have h2 : containsSub ['=', '='] (strChars (p.coordinates.getD "")) = false := h
  have hs := splitOncePair_none_of_not_contains '=' '=' (strChars (p.coordinates.getD "")) h2
  constructor <;> simp [parseNestedEntry, hs]

/-- Witness for C8: a concrete coordinates string without `==` falls
back to the `path` field as the record name. -/
theorem nested_coordinates_split_w :
    (parseNestedEntry
      { coordinates := some "noversion", path := some "/sp/pkg", verificationCoverage := none
        verificationMethod := none, details := none }).name = "/sp/pkg" :=
  ((nested_coordinates_split
      { coordinates := some "noversion", path := some "/sp/pkg", verificationCoverage := none
        verificationMethod := none, details := none }).2 (by decide)).1

/-- Claim C6 (confirmed): while unauthenticated, both the normal and the
verbose verification handlers answer with the 401 unauthorized body
immediately and never spawn the external verification process,
whatever the rest of the environment would have produced. -/
theorem chainver_api_unauthorized (envR : RunEnv) (envV : VerboseEnv) :
    chainver_api false envR = (ApiResponse.unauthorized, false) ∧
    chainver_verbose_api false envV = (ApiResponse.unauthorized, false) :=
  ⟨rfl, rfl⟩

/-- Claim C3 (confirmed): `resolve_tag_to_commit` is total and
best-effort — an exception in any of the three git steps, or empty
rev-list output, returns the original `object_id` unchanged; only when
every step completes with non-empty output is the stripped commit SHA
returned, and in every case the result is either the original id or the
resolved SHA. -/
theorem resolve_tag_to_commit_fallback (env : GitEnv) (repo tag oid : String) :
    (env.clone = .exn → resolve_tag_to_commit env repo tag oid = oid) ∧
    (env.fetch = .exn → resolve_tag_to_commit env repo tag oid = oid) ∧
    (env.revList = .exn → resolve_tag_to_commit env repo tag oid = oid) ∧
    (∀ out, env.revList = .ok out → pyStrip out = "" →
      resolve_tag_to_commit env repo tag oid = oid) ∧
    (∀ out, env.clone = .ok () → env.fetch = .ok () → env.revList = .ok out →
      pyStrip out ≠ "" → resolve_tag_to_commit env repo tag oid = pyStrip out) ∧
    (resolve_tag_to_commit env repo tag oid = oid ∨
      ∃ out, env.revList = .ok out ∧ resolve_tag_to_commit env repo tag oid = pyStrip out) := by
  obtain ⟨c, f, r⟩ := env
  cases c with
  | exn =>
    refine ⟨?_, ?_, ?_, ?_, ?_, ?_⟩
    · intro _; rfl
    · intro _; rfl
    · intro _; rfl
    · intro _ _ _; rfl
    · intro out hc; exact nomatch hc
    · exact Or.inl rfl
  | ok u =>
    cases u
    cases f with
    | exn =>
      refine ⟨?_, ?_, ?_, ?_, ?_, ?_⟩
      · intro h; exact nomatch h
      · intro _; rfl
      · intro _; rfl
      · intro _ _ _; rfl
      · intro out _ hf; exact nomatch hf
      · exact Or.inl rfl
    | ok u2 =>
      cases u2
      cases r with
      | exn =>
        refine ⟨?_, ?_, ?_, ?_, ?_, ?_⟩
        · intro h; exact nomatch h
        · intro h; exact nomatch h
        · intro _; rfl
        · intro out hr; exact nomatch hr
        · intro out _ _ hr; exact nomatch hr
        · exact Or.inl rfl
      | ok out =>
        refine ⟨?_, ?_, ?_, ?_, ?_, ?_⟩
        · intro h; exact nomatch h
        · intro h; exact nomatch h
        · intro h; exact nomatch h
        · intro out' hr he
          cases hr
          simp [resolve_tag_to_commit, he]
        · intro out' _ _ hr hne
          cases hr
          simp [resolve_tag_to_commit, hne]
        · by_cases he : pyStrip out = ""
          · exact Or.inl (by simp [resolve_tag_to_commit, he])
          · exact Or.inr ⟨out, rfl, by simp [resolve_tag_to_commit, he]⟩

/-- Witness for C3: with every git step raising, a concrete object id is
returned unchanged. -/
theorem resolve_tag_to_commit_fallback_w :
    resolve_tag_to_commit ⟨.exn, .exn, .exn⟩ "https://example.com/r" "v1.0" "deadbeef" = "deadbeef" :=
  (resolve_tag_to_commit_fallback ⟨.exn, .exn, .exn⟩ "https://example.com/r" "v1.0" "deadbeef").1 rfl

/-- Claim C5 (confirmed): for the flat entry list
`["a/b.txt", "a/c/", "d.txt"]` (the directory entry reporting size 0, as
zip containers do), the manifest has three files in total, a total size
equal to the two file sizes, and a tree with directory `a` containing
leaf `b.txt` and empty directory `c`, plus sibling leaf `d.txt`. -/
theorem get_wheel_contents_tree_example (sb sd cb cc cd : Nat) :
    (get_wheel_contents "pkg" "1.0"
      [⟨"a/b.txt", sb, cb⟩, ⟨"a/c/", 0, cc⟩, ⟨"d.txt", sd, cd⟩]).total_files = 3 ∧
    (get_wheel_contents "pkg" "1.0"
      [⟨"a/b.txt", sb, cb⟩, ⟨"a/c/", 0, cc⟩, ⟨"d.txt", sd, cd⟩]).total_size = sb + sd ∧
    (get_wheel_contents "pkg" "1.0"
      [⟨"a/b.txt", sb, cb⟩, ⟨"a/c/", 0, cc⟩, ⟨"d.txt", sd, cd⟩]).tree =
      [("a", TreeNode.mk "dir" none none (some
          [("b.txt", TreeNode.mk "file" (some sb) (some "a/b.txt") none),
           ("c", TreeNode.mk "dir" none none (some []))])),
       ("d.txt", TreeNode.mk "file" (some sd) (some "d.txt") none)] := by
  refine ⟨rfl, ?_, rfl⟩
  show sb + (0 + (sd + 0)) = sb + sd
  omega

/-- Counterexample for C4 as stated: an unverified entry whose details
text contains a full Rekor URL (the full-URL regex does match it) still
yields a record with no `rekor_url`, because the extraction block only
runs for verified entries. -/
theorem rekor_url_extraction_gated_cex :
    (digitsAfterLit (strChars rekorEntriesLit)
      (strChars "bad sig, see https://rekor.sigstore.dev/api/v1/log/entries/?logIndex=5 anyway")).isSome
      = true ∧
    ((parse_chainver_output
      { overallVerificationCoverage := none, artifactVerificationCoverage := none
        details := none
        results := some
          [{ artifact := some "pkg-1.0-py3-none-any.whl"
             artifactVerificationCoverage := some 0
             details := some "bad sig, see https://rekor.sigstore.dev/api/v1/log/entries/?logIndex=5 anyway" }]
        nestedResults := none }).packages.map (fun r => (r.verified, r.rekor_url)))
      = [(false, none)] := by
  decide

/-- Claim C4 (corrected): Rekor-URL extraction is attempted only when the
entry is verified and its details text contains `rekor.sigstore.dev`;
then the full-URL regex is tried first, then the bare `logIndex`
fallback synthesizing a `search.sigstore.dev` URL, and the absence of
both yields no URL without error.  Both shapes' records obtain their
`rekor_url` through that one guarded block. -/
theorem rekor_url_extraction_spec (v : Bool) (s : String) :
    (∀ a : ArtifactEntry,
      (parseArtifactEntry a).rekor_url
        = extractRekorUrl (parseArtifactEntry a).verified (a.details.getD "")) ∧
    (∀ p : NestedEntry,
      (parseNestedEntry p).rekor_url
        = extractRekorUrl (parseNestedEntry p).verified (p.details.getD "")) ∧
    (v = false → extractRekorUrl v s = none) ∧
    (containsSub (strChars "rekor.sigstore.dev") (strChars s) = false → extractRekorUrl v s = none) ∧
    (v = true → containsSub (strChars "rekor.sigstore.dev") (strChars s) = true →
      (∀ m, digitsAfterLit (strChars rekorEntriesLit) (strChars s) = some m →
        extractRekorUrl v s = some (String.mk m)) ∧
      (digitsAfterLit (strChars rekorEntriesLit) (strChars s) = none →
        (∀ ds, logIndexDigits (strChars s) = some ds →
          extractRekorUrl v s = some ("https://search.sigstore.dev/?logIndex=" ++ String.mk ds)) ∧
        (logIndexDigits (strChars s) = none → extractRekorUrl v s = none))) := by
  refine ⟨fun a => rfl, fun p => rfl, ?_, ?_, ?_⟩
  · intro h; subst h; exact extractRekorUrl_of_false s
  · intro h; simp [extractRekorUrl, h]
  · intro hv hc
    subst hv
    refine ⟨fun m hm => by simp [extractRekorUrl, hc, hm], fun hn => ⟨?_, ?_⟩⟩
    · intro ds hds; simp [extractRekorUrl, hc, hn, hds]
    · intro hnone; simp [extractRekorUrl, hc, hn, hnone]

/-- Witness for C4 (amended): on a verified entry whose details carry a
bare log index but no full URL, the fallback synthesizes the search URL. -/
theorem rekor_url_extraction_spec_w :
    extractRekorUrl true "rekor.sigstore.dev logIndex: 77"
      = some "https://search.sigstore.dev/?logIndex=77" := by
  have h := ((rekor_url_extraction_spec true "rekor.sigstore.dev logIndex: 77").2.2.2.2
    rfl (by decide)).2 (by decide)
  exact (h.1 ('7' :: ['7']) (by decide)).trans (by decide)

/-! ## Error propagation of the attestation decoder (claim C2). -/

/-- When every statement carried by the attestation decodes, parsing the
attestation succeeds. -/
theorem parse_attestation_ok_of (dec : String → Except DecodeErr Statement)
    (a : AttestationIn)
    (h : ∀ s, statementOf a = some s → ∃ st, dec s = .ok st) :
    ∃ i, parse_attestation dec a = .ok i := by
  cases hs : statementOf a with
  | none =>
    cases hvm : a.verification_material with
    | none =>
      simp only [parse_attestation, hs, hvm]
      exact ⟨_, rfl⟩
    | some vm =>
      simp only [parse_attestation, hs, hvm]
      exact ⟨_, rfl⟩
  | some s =>
    obtain ⟨st, hst⟩ := h s hs
    cases hvm : a.verification_material with
    | none =>
      simp only [parse_attestation, hs, hst, hvm]
      exact ⟨_, rfl⟩
    | some vm =>
      simp only [parse_attestation, hs, hst, hvm]
      exact ⟨_, rfl⟩

/-- A failing statement decode makes the attestation parse fail with the
same error (the source wraps the decode in no handler). -/
theorem parse_attestation_error_of (dec : String → Except DecodeErr Statement)
    (a : AttestationIn) (s : String) (e : DecodeErr)
    (hs : statementOf a = some s) (he : dec s = .error e) :
    parse_attestation dec a = .error e := by
  simp [parse_attestation, hs, he]

/-- When every attestation of the list decodes, the loop returns one
parsed record per attestation. -/
theorem parse_attestations_ok_of (dec : String → Except DecodeErr Statement)
    (l : List AttestationIn)
    (h : ∀ a ∈ l, ∀ s, statementOf a = some s → ∃ st, dec s = .ok st) :
    ∃ is, parse_attestations dec l = .ok is ∧ is.length = l.length := by
  induction l with
  | nil => exact ⟨[], rfl, rfl⟩
  | cons a rest ih =>
    obtain ⟨i, hi⟩ := parse_attestation_ok_of dec a (h a (List.mem_cons_self a rest))
    obtain ⟨is, his, hlen⟩ := ih fun a2 ha2 => h a2 (List.mem_cons_of_mem a ha2)
    exact ⟨i :: is, by simp [parse_attestations, hi, his], by simp [hlen]⟩

/-- One failing attestation anywhere in the list makes the whole loop
fail: there is no per-item isolation. -/
theorem parse_attestations_error_of (dec : String → Except DecodeErr Statement)
    (l : List AttestationIn) (a : AttestationIn) (s : String) (e : DecodeErr)
    (ha : a ∈ l) (hs : statementOf a = some s) (he : dec s = .error e) :
    ∃ e2, parse_attestations dec l = .error e2 := by
  induction l with
  | nil => cases ha
  | cons b rest ih =>
    rcases List.mem_cons.1 ha with hab | hmem
    · subst hab
      exact ⟨e, by simp [parse_attestations, parse_attestation_error_of dec a s e hs he]⟩
    · cases hb : parse_attestation dec b with
      | error e3 => exact ⟨e3, by simp [parse_attestations, hb]⟩
      | ok i =>
        obtain ⟨e2, he2⟩ := ih hmem
        exact ⟨e2, by simp [parse_attestations, hb, he2]⟩

/-- When every attestation of every bundle decodes, the bundle loop
returns one parsed bundle per input bundle, each with one record per
attestation. -/
theorem parse_bundles_ok_of (dec : String → Except DecodeErr Statement)
    (l : List BundleIn)
    (h : ∀ b ∈ l, ∀ a ∈ b.attestations.getD [], ∀ s,
      statementOf a = some s → ∃ st, dec s = .ok st) :
    ∃ bs, parse_bundles dec l = .ok bs ∧ bs.length = l.length ∧
      ∀ pr ∈ bs.zip l, pr.1.attestations.length = (pr.2.attestations.getD []).length := by
  induction l with
  | nil => exact ⟨[], rfl, rfl, by intro pr hpr; cases hpr⟩
  | cons b rest ih =>
    obtain ⟨atts, hatts, hal⟩ :=
      parse_attestations_ok_of dec (b.attestations.getD []) (h b (List.mem_cons_self b rest))
    obtain ⟨bs, hbs, hbl, hz⟩ := ih fun b2 hb2 => h b2 (List.mem_cons_of_mem b hb2)
    refine ⟨{ publisher := b.publisher.getD (Json.obj []), attestations := atts } :: bs,
      by simp [parse_bundles, hatts, hbs], by simp [hbl], ?_⟩
    intro pr hpr
    rcases List.mem_cons.1 hpr with hh | ht
    · rw [hh]
      exact hal
    · exact hz pr ht

/-- One failing attestation inside any bundle makes the whole bundle loop
fail. -/
theorem parse_bundles_error_of (dec : String → Except DecodeErr Statement)
    (l : List BundleIn) (b : BundleIn) (a : AttestationIn) (s : String) (e : DecodeErr)
    (hb : b ∈ l) (ha : a ∈ b.attestations.getD [])
    (hs : statementOf a = some s) (he : dec s = .error e) :
    ∃ e2, parse_bundles dec l = .error e2 := by
  induction l with
  | nil => cases hb
  | cons b2 rest ih =>
    rcases List.mem_cons.1 hb with hbb | hmem
    · subst hbb
      obtain ⟨e2, he2⟩ :=
        parse_attestations_error_of dec (b.attestations.getD []) a s e ha hs he
      exact ⟨e2, by simp [parse_bundles, he2]⟩
    · cases hcase : parse_attestations dec (b2.attestations.getD []) with
      | error e3 => exact ⟨e3, by simp [parse_bundles, hcase]⟩
      | ok atts =>
        obtain ⟨e2, he2⟩ := ih hmem
        exact ⟨e2, by simp [parse_bundles, hcase, he2]⟩

/-- The abstract decode map and the concrete two-attestation document of
the C2 scenario: one attestation whose statement decodes and one whose
base64 payload is malformed. -/
def C2decEx : String → Except DecodeErr Statement :=
  fun s => if s = "Z29vZA==" then .ok ⟨none, none⟩ else .error .badBase64

/-- An attestation whose statement payload decodes. -/
def C2goodAtt : AttestationIn :=
  { version := some 1, envelope := some ⟨some "Z29vZA=="⟩, verification_material := none }

/-- An attestation whose statement payload is malformed base64. -/
def C2badAtt : AttestationIn :=
  { version := none, envelope := some ⟨some "%%%"⟩, verification_material := none }

/-- A document with one bundle holding the good and the bad attestation. -/
def C2pdBad : ProvenanceData :=
  { version := some 1
    attestation_bundles := some [{ publisher := none, attestations := some [C2goodAtt, C2badAtt] }] }

/-- A document with one bundle holding only the good attestation. -/
def C2pdGood : ProvenanceData :=
  { version := some 1
    attestation_bundles := some [{ publisher := none, attestations := some [C2goodAtt] }] }

/-- Counterexample for C2 as stated: on a bundle with one well-formed and
one malformed attestation, `parse_provenance_data` does not skip the bad
item and yield the good sibling with a skip count — the decode failure
aborts the whole document with a single error. -/
theorem parse_provenance_data_abort_cex :
    parse_provenance_data C2decEx C2pdBad = Except.error DecodeErr.badBase64 := rfl

/-- Claim C2 (amended): a malformed base64 envelope payload or inner JSON
statement of any attestation makes `parse_provenance_data` fail for the
whole document (the error propagates; no sibling is yielded and no skip
count exists); only when every attestation's statement decodes does it
return a result, with exactly one parsed attestation per input
attestation in every bundle. -/
theorem parse_provenance_data_error_propagation (dec : String → Except DecodeErr Statement)
    (pd : ProvenanceData) :
    ((∃ b ∈ pd.attestation_bundles.getD [], ∃ a ∈ b.attestations.getD [],
        ∃ s e, statementOf a = some s ∧ dec s = .error e) →
      ∃ e, parse_provenance_data dec pd = .error e) ∧
    ((∀ b ∈ pd.attestation_bundles.getD [], ∀ a ∈ b.attestations.getD [],
        ∀ s, statementOf a = some s → ∃ st, dec s = .ok st) →
      ∃ r, parse_provenance_data dec pd = .ok r ∧
        r.bundles.length = (pd.attestation_bundles.getD []).length ∧
        ∀ pr ∈ r.bundles.zip (pd.attestation_bundles.getD []),
          pr.1.attestations.length = (pr.2.attestations.getD []).length) := by
  constructor
  · rintro ⟨b, hb, a, ha, s, e, hs, he⟩
    obtain ⟨e2, he2⟩ := parse_bundles_error_of dec _ b a s e hb ha hs he
    exact ⟨e2, by simp [parse_provenance_data, he2]⟩
  · intro h
    obtain ⟨bs, hbs, hlen, hz⟩ := parse_bundles_ok_of dec _ h
    exact ⟨{ version := pd.version.getD 1, bundles := bs },
      by simp [parse_provenance_data, hbs], hlen, hz⟩

/-- Witness for C2 (amended): on the all-well-formed document the decoder
returns one parsed bundle. -/
theorem parse_provenance_data_error_propagation_w :
    (parse_provenance_data C2decEx C2pdGood).map (fun r => r.bundles.length)
      = Except.ok 1 := by
  have hyp : ∀ b ∈ C2pdGood.attestation_bundles.getD [], ∀ a ∈ b.attestations.getD [],
      ∀ s, statementOf a = some s → ∃ st, C2decEx s = .ok st := by
    intro b hb a ha s hs
    have hb2 : b = { publisher := none, attestations := some [C2goodAtt] } := by
      simpa [C2pdGood] using hb
    subst hb2
    have ha2 : a = C2goodAtt := by simpa using ha
    subst ha2
    have hs2 : "Z29vZA==" = s := Option.some.inj hs
    exact ⟨⟨none, none⟩, by rw [← hs2]; rfl⟩
  obtain ⟨r, hr, hlen, -⟩ :=
    (parse_provenance_data_error_propagation C2decEx C2pdGood).2 hyp
  rw [hr]
  simpa [Except.map] using hlen.trans rfl

end ChainApp
